import Mathlib

/-!
Verification of the book-store query module (`src/queries.js`).

The module operates on a MongoDB collection of book documents.  We embed the
collection shallowly: a store is the list of stored documents in natural
(insertion) order together with the counter producing the next store-assigned
identifier.  Each function of `queries.js` opens the same collection and issues
one driver call; we model that call's effect on the embedded store.  Numeric
prices are embedded as rationals, years as integers.
-/

/-- A well-formed book record: the eight fields the data set and the spec's
record model use (`title`, `author`, `genre`, `published_year`, `price`,
`in_stock`, `pages`, `publisher`). -/
structure Book where
  title : String
  author : String
  genre : String
  published_year : Int
  price : ℚ
  in_stock : Bool
  pages : Int
  publisher : String
deriving DecidableEq, Repr

/-- A document as stored in the collection: the record data plus the
store-assigned unique identifier (`_id`), modelled as a natural number. -/
structure StoredBook where
  oid : Nat
  data : Book
deriving DecidableEq, Repr

/-- The collection state: documents in natural (insertion) order, and the
counter from which the next `_id` is assigned. -/
structure Store where
  books : List StoredBook
  nextId : Nat
deriving DecidableEq, Repr

/-- Embeds `createBook` (queries.js lines 18-23): `collection.insertOne(bookData)`
appends the document, assigns it a fresh identifier, and returns that
identifier (`result.insertedId`). -/
def createBook (bookData : Book) (s : Store) : Nat × Store :=
  (s.nextId, ⟨s.books ++ [⟨s.nextId, bookData⟩], s.nextId + 1⟩)

/-- Embeds `readBook` (queries.js lines 26-31): `collection.findOne({ title })`
returns the first document in natural order whose title equals the argument,
or an explicit absence signal. -/
def readBook (title : String) (s : Store) : Option StoredBook :=
  s.books.find? fun b => b.data.title == title

/-- The result object of `updateOne`: how many documents matched the filter and
how many were modified.  `updateOne` affects at most the first match. -/
structure UpdateResult where
  matchedCount : Nat
  modifiedCount : Nat
deriving DecidableEq, Repr

/-- Applies `$set { price }` to the first document whose title matches, leaving
every other document untouched. -/
def setPriceFirst (t : String) (p : ℚ) : List StoredBook → List StoredBook
  | [] => []
  | b :: rest =>
    if b.data.title == t then { b with data := { b.data with price := p } } :: rest
    else b :: setPriceFirst t p rest

/-- Embeds `updateBookPrice` (queries.js lines 34-42):
`collection.updateOne({ title }, { $set: { price: newPrice } })` sets the price
of the first matching document.  The result reports `matchedCount` 1 when some
document matched, and `modifiedCount` 1 only when the matched document was
actually changed: a `$set` to the value the document already holds is a no-op
the driver reports with `modifiedCount` 0. -/
def updateBookPrice (title : String) (newPrice : ℚ) (s : Store) : UpdateResult × Store :=
  let res : UpdateResult :=
    match s.books.find? (fun b => b.data.title == title) with
    | none => ⟨0, 0⟩
    | some b => ⟨1, if b.data.price = newPrice then 0 else 1⟩
  (res, ⟨setPriceFirst title newPrice s.books, s.nextId⟩)

/-- The result object of `deleteOne`: how many documents were deleted. -/
structure DeleteResult where
  deletedCount : Nat
deriving DecidableEq, Repr

/-- Removes the first document whose title matches, leaving the rest. -/
def deleteFirst (t : String) : List StoredBook → List StoredBook
  | [] => []
  | b :: rest => if b.data.title == t then rest else b :: deleteFirst t rest

/-- Embeds `deleteBook` (queries.js lines 45-50):
`collection.deleteOne({ title })` removes the first matching document and
reports the deleted count (0 or 1). -/
def deleteBook (title : String) (s : Store) : DeleteResult × Store :=
  let n : Nat := if s.books.any (fun b => b.data.title == title) then 1 else 0
  (⟨n⟩, ⟨deleteFirst title s.books, s.nextId⟩)

/-- A raw document as `insertOne` accepts it: every field optional, since the
driver performs no schema validation on insert. -/
structure RawBook where
  title : Option String
  author : Option String
  genre : Option String
  published_year : Option Int
  price : Option ℚ
  in_stock : Option Bool
  pages : Option Int
  publisher : Option String
deriving DecidableEq, Repr

/-- A collection of raw documents, for inserts of arbitrary shape. -/
structure RawStore where
  docs : List (Nat × RawBook)
  nextId : Nat
deriving DecidableEq, Repr

/-- Embeds `createBook` applied to an arbitrary document: `insertOne` appends
whatever document it is given (no field is checked) and returns the assigned
identifier. -/
def createBookRaw (bookData : RawBook) (s : RawStore) : Nat × RawStore :=
  (s.nextId, ⟨s.docs ++ [(s.nextId, bookData)], s.nextId + 1⟩)

-- Concrete sample data used by counterexamples and witnesses.

/-- A sample well-formed book record. -/
def bookAX : Book :=
  { title := "A", author := "X", genre := "G", published_year := 1950,
    price := 5, in_stock := true, pages := 100, publisher := "P" }

/-- The same record with a different author. -/
def bookAY : Book := { bookAX with author := "Y" }

/-- A store already holding `bookAX` under identifier 0. -/
def storeAX : Store := ⟨[⟨0, bookAX⟩], 1⟩

/-- A raw document whose required `title` field is absent. -/
def noTitleDoc : RawBook :=
  ⟨none, some "X", some "G", some 1950, some 5, some true, some 100, some "P"⟩

-- Query operations.

/-- The sort key of `findBooksBetweenYears`: ascending `published_year`
(`.sort({ published_year: 1 })`). -/
def byYear (a b : StoredBook) : Prop :=
  a.data.published_year ≤ b.data.published_year

instance : DecidableRel byYear :=
  fun a b => inferInstanceAs (Decidable (a.data.published_year ≤ b.data.published_year))

instance : IsTotal StoredBook byYear :=
  ⟨fun a b => Int.le_total a.data.published_year b.data.published_year⟩

instance : IsTrans StoredBook byYear :=
  ⟨fun _ _ _ h₁ h₂ => le_trans h₁ h₂⟩

/-- Embeds `findBooksBetweenYears` (queries.js lines 66-73):
`find({ published_year: { $gte: startYear, $lte: endYear } })` keeps the
documents whose year lies in the inclusive range, and
`.sort({ published_year: 1 })` orders them ascending by year. -/
def findBooksBetweenYears (startYear endYear : Int) (s : Store) : List StoredBook :=
  List.insertionSort byYear
    (s.books.filter fun b =>
      decide (startYear ≤ b.data.published_year) && decide (b.data.published_year ≤ endYear))

/-- Embeds `findAffordableBooksInStock` (queries.js lines 76-84):
`find({ price: { $lt: maxPrice }, in_stock: true })` keeps the documents whose
price is strictly below the bound and that are in stock; the two predicates of
the filter document are conjunctive. -/
def findAffordableBooksInStock (maxPrice : ℚ) (s : Store) : List StoredBook :=
  s.books.filter fun b => decide (b.data.price < maxPrice) && b.data.in_stock

-- Aggregation pipelines.

/-- One output group of `getAveragePriceByGenre`: the genre (`_id`) and the
average of the prices of its documents. -/
structure GenreAvg where
  _id : String
  averagePrice : ℚ
deriving DecidableEq, Repr

/-- The prices of all documents of one genre, in natural order. -/
def genrePrices (g : String) (s : Store) : List ℚ :=
  (s.books.filter fun b => b.data.genre == g).map fun b => b.data.price

/-- The sort key of `getAveragePriceByGenre`: descending `averagePrice`
(`$sort: { averagePrice: -1 }`). -/
def byAvgDesc (a b : GenreAvg) : Prop := b.averagePrice ≤ a.averagePrice

instance : DecidableRel byAvgDesc :=
  fun a b => inferInstanceAs (Decidable (b.averagePrice ≤ a.averagePrice))

instance : IsTotal GenreAvg byAvgDesc :=
  ⟨fun a b => le_total b.averagePrice a.averagePrice⟩

instance : IsTrans GenreAvg byAvgDesc :=
  ⟨fun _ _ _ h₁ h₂ => le_trans h₂ h₁⟩

/-- Embeds `getAveragePriceByGenre` (queries.js lines 89-97):
`$group: { _id: $genre, averagePrice: { $avg: $price } }` produces one group
per genre occurring in the collection, whose average is the sum of the group's
prices divided by their number; `$sort: { averagePrice: -1 }` orders the groups
descending by average price. -/
def getAveragePriceByGenre (s : Store) : List GenreAvg :=
  List.insertionSort byAvgDesc
    (((s.books.map fun b => b.data.genre).dedup).map fun g =>
      ⟨g, (genrePrices g s).sum / ((genrePrices g s).length : ℚ)⟩)

/-- The decade computed by the `$project` stage of `getBooksByDecade`:
`$subtract: [$published_year, { $mod: [$published_year, 10] }]`, with `$mod`
truncating toward zero as the aggregation operator does. -/
def decadeOf (y : Int) : Int := y - Int.tmod y 10

/-- One output group of `getBooksByDecade`: the decade (`_id`) and the number
of documents published in it. -/
structure DecadeCount where
  _id : Int
  count : Nat
deriving DecidableEq, Repr

/-- The sort key of `getBooksByDecade`: ascending decade (`$sort: { _id: 1 }`). -/
def byDecade (a b : DecadeCount) : Prop := a._id ≤ b._id

instance : DecidableRel byDecade :=
  fun a b => inferInstanceAs (Decidable (a._id ≤ b._id))

instance : IsTotal DecadeCount byDecade := ⟨fun a b => Int.le_total a._id b._id⟩

instance : IsTrans DecadeCount byDecade := ⟨fun _ _ _ h₁ h₂ => le_trans h₁ h₂⟩

/-- Embeds `getBooksByDecade` (queries.js lines 100-118): every document is
projected to its decade, `$group: { _id: $decade, count: { $sum: 1 } }` counts
the documents per decade, and `$sort: { _id: 1 }` orders the groups ascending
by decade. -/
def getBooksByDecade (s : Store) : List DecadeCount :=
  List.insertionSort byDecade
    (((s.books.map fun b => decadeOf b.data.published_year).dedup).map fun d =>
      ⟨d, (s.books.filter fun b => decadeOf b.data.published_year == d).length⟩)

/-- The sort key of the first stage of `getMostExpensiveByGenre`:
`$sort: { genre: 1, price: -1 }`, ascending genre and, within a genre,
descending price. -/
def byGenrePriceDesc (a b : StoredBook) : Prop :=
  a.data.genre < b.data.genre ∨ (a.data.genre = b.data.genre ∧ b.data.price ≤ a.data.price)

instance : DecidableRel byGenrePriceDesc :=
  fun a b =>
    inferInstanceAs (Decidable (a.data.genre < b.data.genre ∨
      (a.data.genre = b.data.genre ∧ b.data.price ≤ a.data.price)))

instance : IsTotal StoredBook byGenrePriceDesc := by
  constructor
  intro a b
  rcases lt_trichotomy a.data.genre b.data.genre with h | h | h
  · exact Or.inl (Or.inl h)
  · rcases le_total b.data.price a.data.price with hp | hp
    · exact Or.inl (Or.inr ⟨h, hp⟩)
    · exact Or.inr (Or.inr ⟨h.symm, hp⟩)
  · exact Or.inr (Or.inl h)

instance : IsTrans StoredBook byGenrePriceDesc := by
  constructor
  rintro a b c (hab | ⟨hab, hpab⟩) (hbc | ⟨hbc, hpbc⟩)
  · exact Or.inl (lt_trans hab hbc)
  · exact Or.inl (hbc ▸ hab)
  · exact Or.inl (hab ▸ hbc)
  · exact Or.inr ⟨hab.trans hbc, le_trans hpbc hpab⟩

/-- One output entry of `getMostExpensiveByGenre`: the genre (`_id`) and the
title, author and price taken by `$first` from the group's leading document. -/
structure GenreTop where
  _id : String
  title : String
  author : String
  price : ℚ
deriving DecidableEq, Repr

/-- Embeds `getMostExpensiveByGenre` (queries.js lines 121-136): the collection
is sorted by `{ genre: 1, price: -1 }`, then grouped by genre, each group
keeping the `$first` title, author and price encountered in that order — i.e.
those of the first document of the genre in the sorted sequence.  The `none`
branch is unreachable: every genre in the group list occurs in the sorted
sequence. -/
def topOfGenre (s : Store) (g : String) : GenreTop :=
  match (List.insertionSort byGenrePriceDesc s.books).find? (fun b => b.data.genre == g) with
  | some b => ⟨g, b.data.title, b.data.author, b.data.price⟩
  | none => ⟨g, "", "", 0⟩

def getMostExpensiveByGenre (s : Store) : List GenreTop :=
  (((List.insertionSort byGenrePriceDesc s.books).map fun b => b.data.genre).dedup).map
    (topOfGenre s)

-- Claims.

/-- C1, counterexample: the create/read round trip is not the identity on the
record when another record with the same title is already stored — `findOne`
returns the earlier record (author "X"), not the inserted one (author "Y"). -/
theorem createBook_readBook_roundtrip_cex :
    ((readBook "A" (createBook bookAY storeAX).2).map StoredBook.data ≠ some bookAY)
      ∧ bookAY.title = "A" := by decide

/-- C1 (amended): for every record r and every store holding no record titled
r.title, Create(r) followed by ReadByTitle(r.title) returns a record equal to r
in every field except the store-assigned identifier. -/
theorem createBook_readBook_roundtrip_fresh (r : Book) (s : Store)
    (h : ∀ b ∈ s.books, b.data.title ≠ r.title) :
    (readBook r.title (createBook r s).2).map StoredBook.data = some r := by
  have h1 : s.books.find? (fun b => b.data.title == r.title) = none := by
    rw [List.find?_eq_none]
    intro x hx
    simpa using h x hx
  simp [readBook, createBook, List.find?_append, h1, List.find?]

/-- C1, witness: the round trip at a concrete record and the empty store. -/
theorem createBook_readBook_roundtrip_fresh_wit :
    (readBook bookAX.title (createBook bookAX ⟨[], 0⟩).2).map StoredBook.data = some bookAX :=
  createBook_readBook_roundtrip_fresh bookAX ⟨[], 0⟩ (by intro b hb; cases hb)

/-- C2, counterexample: a document whose required title field is absent is
nevertheless inserted — `insertOne` performs no validation and cannot fail with
a ValidationError. -/
theorem createBook_no_validation_cex :
    noTitleDoc.title = none
      ∧ (0, noTitleDoc) ∈ (createBookRaw noTitleDoc ⟨[], 0⟩).2.docs
      ∧ (createBookRaw noTitleDoc ⟨[], 0⟩).2.docs.length = 1 := by decide

/-- C2 (amended): Create performs no validation: for every input document,
including one missing the title field, it appends the document to the
collection and returns the store-assigned unique identifier. -/
theorem createBook_always_inserts (d : RawBook) (s : RawStore) :
    (createBookRaw d s).1 = s.nextId
      ∧ (createBookRaw d s).2.docs = s.docs ++ [(s.nextId, d)]
      ∧ (s.nextId, d) ∈ (createBookRaw d s).2.docs := by
  refine ⟨rfl, rfl, ?_⟩
  simp [createBookRaw]

/-- C3: FindAffordableInStock(maxPrice) returns exactly the stored records with
price strictly below maxPrice and in_stock true; a record priced exactly at
maxPrice is excluded, and an out-of-stock record never appears. -/
theorem findAffordableBooksInStock_spec (maxPrice : ℚ) (s : Store) :
    (∀ b, b ∈ findAffordableBooksInStock maxPrice s ↔
        b ∈ s.books ∧ b.data.price < maxPrice ∧ b.data.in_stock = true)
      ∧ (∀ b, b.data.price = maxPrice → b ∉ findAffordableBooksInStock maxPrice s)
      ∧ (∀ b, b.data.in_stock = false → b ∉ findAffordableBooksInStock maxPrice s) := by
  have hmem : ∀ b, b ∈ findAffordableBooksInStock maxPrice s ↔
      b ∈ s.books ∧ b.data.price < maxPrice ∧ b.data.in_stock = true := by
    intro b
    simp [findAffordableBooksInStock, List.mem_filter]
  refine ⟨hmem, fun b hb hin => ?_, fun b hb hin => ?_⟩
  · rcases (hmem b).1 hin with ⟨_, hlt, _⟩
    exact absurd (hb ▸ hlt) (lt_irrefl _)
  · rcases (hmem b).1 hin with ⟨_, _, hst⟩
    rw [hb] at hst
    cases hst

/-- C4: FindByYearRange(start, end) returns exactly the stored records whose
published_year lies in the inclusive range, and the returned sequence is
non-decreasing in published_year. -/
theorem findBooksBetweenYears_spec (startYear endYear : Int) (s : Store) :
    (findBooksBetweenYears startYear endYear s).Perm
        (s.books.filter fun b =>
          decide (startYear ≤ b.data.published_year) && decide (b.data.published_year ≤ endYear))
      ∧ (∀ x, x ∈ findBooksBetweenYears startYear endYear s ↔
          x ∈ s.books ∧ startYear ≤ x.data.published_year ∧ x.data.published_year ≤ endYear)
      ∧ (findBooksBetweenYears startYear endYear s).Sorted byYear := by
  refine ⟨List.perm_insertionSort _ _, fun x => ?_, List.sorted_insertionSort _ _⟩
  simp [findBooksBetweenYears, List.mem_filter, and_assoc]

-- Helper lemmas for the CRUD operations.

lemma setPriceFirst_read (t : String) (v : ℚ) :
    ∀ l : List StoredBook, (l.filter fun b => b.data.title == t).length = 1 →
      ((setPriceFirst t v l).find? fun b => b.data.title == t).map (fun b => b.data.price)
        = some v := by
  intro l
  induction l with
  | nil => intro h; simp at h
  | cons b rest ih =>
    intro h
    by_cases hb : (b.data.title == t) = true
    · have hb' : ((({ b with data := { b.data with price := v } } : StoredBook)).data.title
          == t) = true := hb
      rw [setPriceFirst, if_pos hb,
        List.find?_cons_of_pos (p := fun x : StoredBook => x.data.title == t) _ hb']
      rfl
    · rw [List.filter_cons_of_neg (by simpa using hb)] at h
      rw [setPriceFirst, if_neg hb,
        List.find?_cons_of_neg (p := fun x : StoredBook => x.data.title == t) _ hb]
      exact ih h

lemma setPriceFirst_no_match (t : String) (v : ℚ) :
    ∀ l : List StoredBook, (∀ b ∈ l, b.data.title ≠ t) → setPriceFirst t v l = l := by
  intro l
  induction l with
  | nil => intro _; rfl
  | cons b rest ih =>
    intro h
    have hb : ¬ (b.data.title == t) = true := by
      simpa using h b (List.mem_cons_self b rest)
    rw [setPriceFirst, if_neg hb, ih fun x hx => h x (List.mem_cons_of_mem b hx)]

lemma deleteFirst_no_match (t : String) :
    ∀ l : List StoredBook, (∀ b ∈ l, b.data.title ≠ t) → deleteFirst t l = l := by
  intro l
  induction l with
  | nil => intro _; rfl
  | cons b rest ih =>
    intro h
    have hb : ¬ (b.data.title == t) = true := by
      simpa using h b (List.mem_cons_self b rest)
    rw [deleteFirst, if_neg hb, ih fun x hx => h x (List.mem_cons_of_mem b hx)]

lemma deleteFirst_length (t : String) :
    ∀ l : List StoredBook, (∃ b ∈ l, b.data.title = t) →
      (deleteFirst t l).length + 1 = l.length := by
  intro l
  induction l with
  | nil => rintro ⟨b, hb, -⟩; cases hb
  | cons b rest ih =>
    rintro ⟨x, hx, hxt⟩
    by_cases hb : (b.data.title == t) = true
    · rw [deleteFirst, if_pos hb]
      rfl
    · rcases List.mem_cons.1 hx with rfl | hx
      · exact absurd (by simpa using hxt) hb
      · rw [deleteFirst, if_neg hb]
        simpa using ih ⟨x, hx, hxt⟩

/-- C5: when the title matches exactly one stored record, updating the price to
v and then reading by that title yields a record whose price is v. -/
theorem updateBookPrice_readBook_price (title : String) (v : ℚ) (s : Store)
    (h : (s.books.filter fun b => b.data.title == title).length = 1) :
    (readBook title (updateBookPrice title v s).2).map (fun b => b.data.price) = some v := by
  simpa [readBook, updateBookPrice] using setPriceFirst_read title v s.books h

/-- C5, witness: the update/read pair at a concrete one-record store. -/
theorem updateBookPrice_readBook_price_wit :
    (readBook "A" (updateBookPrice "A" 7 storeAX).2).map (fun b => b.data.price) = some 7 :=
  updateBookPrice_readBook_price "A" 7 storeAX (by decide)

/-- C9, counterexample: a matched no-op update does not report a count of 1.
The store holds a record titled "A" priced 5; updating the price of "A" to 5
matches that record, yet `updateOne` reports `modifiedCount` 0 because the
`$set` changes nothing.  (The matched delete still reports 1.) -/
theorem update_noop_modified_count_cex :
    (∃ b ∈ storeAX.books, b.data.title = "A")
      ∧ (updateBookPrice "A" 5 storeAX).1.modifiedCount = 0
      ∧ (deleteBook "A" storeAX).1.deletedCount = 1 := by decide

/-- C9 (amended): zero-match update and delete complete normally with counts of
zero and leave the collection unchanged.  When the title matches a record,
DeleteByTitle reports exactly 1 and removes exactly one record, and
UpdateField(title, "price", v) reports a modified count of exactly 1 when the
first matched record's price differs from v, and of 0 when that record already
holds price v (a no-op update). -/
theorem update_delete_match_counts (title : String) (v : ℚ) (s : Store) :
    ((∀ b ∈ s.books, b.data.title ≠ title) →
        (updateBookPrice title v s).1.modifiedCount = 0
        ∧ (deleteBook title s).1.deletedCount = 0
        ∧ (updateBookPrice title v s).2.books = s.books
        ∧ (deleteBook title s).2.books = s.books)
      ∧ (∀ b, (s.books.find? fun x => x.data.title == title) = some b →
          ((b.data.price ≠ v → (updateBookPrice title v s).1.modifiedCount = 1)
            ∧ (b.data.price = v → (updateBookPrice title v s).1.modifiedCount = 0)))
      ∧ ((∃ b ∈ s.books, b.data.title = title) →
        (deleteBook title s).1.deletedCount = 1
        ∧ (deleteBook title s).2.books.length + 1 = s.books.length) := by
  refine ⟨?_, ?_, ?_⟩
  · intro h
    have hany : (s.books.any fun b => b.data.title == title) = false := by
      rw [List.any_eq_false]
      intro x hx
      simpa using h x hx
    have hfind : (s.books.find? fun x => x.data.title == title) = none := by
      rw [List.find?_eq_none]
      intro x hx
      simpa using h x hx
    refine ⟨by simp [updateBookPrice, hfind], by simp [deleteBook, hany], ?_, ?_⟩
    · simpa [updateBookPrice] using setPriceFirst_no_match title v s.books h
    · simpa [deleteBook] using deleteFirst_no_match title s.books h
  · intro b hb
    constructor
    · intro hne
      simp [updateBookPrice, hb, hne]
    · intro heq
      simp [updateBookPrice, hb, heq]
  · rintro ⟨x, hx, hxt⟩
    have hany : (s.books.any fun b => b.data.title == title) = true := by
      rw [List.any_eq_true]
      exact ⟨x, hx, by simpa using hxt⟩
    refine ⟨by simp [deleteBook, hany], ?_⟩
    simpa [deleteBook] using deleteFirst_length title s.books ⟨x, hx, hxt⟩

-- The frame relation of the price update.

/-- Field-by-field frame condition of `updateBookPrice`: the new document keeps
the old identifier and every record field except possibly the price, and a
document whose title differs from the updated title is entirely unchanged. -/
def priceFrame (t : String) (old new : StoredBook) : Prop :=
  new.oid = old.oid ∧ new.data.title = old.data.title
    ∧ new.data.author = old.data.author ∧ new.data.genre = old.data.genre
    ∧ new.data.published_year = old.data.published_year
    ∧ new.data.in_stock = old.data.in_stock ∧ new.data.pages = old.data.pages
    ∧ new.data.publisher = old.data.publisher ∧ (old.data.title ≠ t → new = old)

lemma priceFrame_refl (t : String) (b : StoredBook) : priceFrame t b b :=
  ⟨rfl, rfl, rfl, rfl, rfl, rfl, rfl, rfl, fun _ => rfl⟩

/-- Marks a pair of an old and a new document whose prices differ. -/
def priceChanged (q : StoredBook × StoredBook) : Bool :=
  !(q.2.data.price == q.1.data.price)

lemma zip_self_countP (l : List StoredBook) : (l.zip l).countP priceChanged = 0 := by
  induction l with
  | nil => rfl
  | cons b rest ih => simp [List.zip_cons_cons, List.countP_cons, priceChanged, ih]

lemma setPriceFirst_forall₂ (t : String) (v : ℚ) :
    ∀ l : List StoredBook, List.Forall₂ (priceFrame t) l (setPriceFirst t v l) := by
  intro l
  induction l with
  | nil => exact List.Forall₂.nil
  | cons b rest ih =>
    by_cases hb : (b.data.title == t) = true
    · rw [setPriceFirst, if_pos hb]
      refine List.Forall₂.cons ⟨rfl, rfl, rfl, rfl, rfl, rfl, rfl, rfl, fun hne => ?_⟩
        (List.forall₂_same.2 fun x _ => priceFrame_refl t x)
      exact absurd (by simpa using hb) hne
    · rw [setPriceFirst, if_neg hb]
      exact List.Forall₂.cons (priceFrame_refl t b) ih

lemma setPriceFirst_countP (t : String) (v : ℚ) :
    ∀ l : List StoredBook, (l.zip (setPriceFirst t v l)).countP priceChanged ≤ 1 := by
  intro l
  induction l with
  | nil => simp
  | cons b rest ih =>
    by_cases hb : (b.data.title == t) = true
    · rw [setPriceFirst, if_pos hb]
      rw [List.zip_cons_cons, List.countP_cons, zip_self_countP]
      split <;> simp
    · rw [setPriceFirst, if_neg hb]
      rw [List.zip_cons_cons, List.countP_cons]
      have : priceChanged (b, b) = false := by simp [priceChanged]
      simpa [this] using ih

/-- C10: the price update changes at most the price of a single matched
document: every document keeps its identifier and every non-price field, a
document whose title does not match is entirely unchanged, at most one pair of
old and new documents differs in price, and the id counter is unchanged. -/
theorem updateBookPrice_frame (title : String) (v : ℚ) (s : Store) :
    List.Forall₂ (priceFrame title) s.books (updateBookPrice title v s).2.books
      ∧ (s.books.zip (updateBookPrice title v s).2.books).countP priceChanged ≤ 1
      ∧ (updateBookPrice title v s).2.nextId = s.nextId := by
  refine ⟨?_, ?_, rfl⟩
  · simpa [updateBookPrice] using setPriceFirst_forall₂ title v s.books
  · simpa [updateBookPrice] using setPriceFirst_countP title v s.books

-- The aggregation claims.

/-- C6: AveragePriceByGenre returns one group per genre occurring in the store
(none for absent genres, no duplicate groups), each group's averagePrice is the
arithmetic mean of the prices of all records of that genre, and the groups are
sorted descending by averagePrice. -/
theorem getAveragePriceByGenre_spec (s : Store) :
    (∀ e ∈ getAveragePriceByGenre s,
        (genrePrices e._id s).length ≠ 0
        ∧ e.averagePrice = (genrePrices e._id s).sum / ((genrePrices e._id s).length : ℚ))
      ∧ (∀ b ∈ s.books, ∃ e ∈ getAveragePriceByGenre s, e._id = b.data.genre)
      ∧ (getAveragePriceByGenre s).Sorted byAvgDesc
      ∧ (getAveragePriceByGenre s).Pairwise (fun x y => x._id ≠ y._id) := by
  refine ⟨?_, ?_, List.sorted_insertionSort _ _, ?_⟩
  · intro e he
    rw [getAveragePriceByGenre, List.mem_insertionSort, List.mem_map] at he
    obtain ⟨g, hg, rfl⟩ := he
    rw [List.mem_dedup, List.mem_map] at hg
    obtain ⟨b, hb, rfl⟩ := hg
    refine ⟨?_, rfl⟩
    have hbf : b ∈ s.books.filter fun x => x.data.genre == b.data.genre :=
      List.mem_filter.2 ⟨hb, by simp⟩
    have : 0 < (genrePrices b.data.genre s).length := by
      rw [genrePrices, List.length_map]
      exact List.length_pos.2 (List.ne_nil_of_mem hbf)
    exact this.ne'
  · intro b hb
    refine ⟨⟨b.data.genre,
      (genrePrices b.data.genre s).sum / ((genrePrices b.data.genre s).length : ℚ)⟩, ?_, rfl⟩
    rw [getAveragePriceByGenre, List.mem_insertionSort]
    exact List.mem_map_of_mem _ (List.mem_dedup.2 (List.mem_map_of_mem _ hb))
  · have hperm := List.perm_insertionSort byAvgDesc
      (((s.books.map fun b => b.data.genre).dedup).map fun g =>
        (⟨g, (genrePrices g s).sum / ((genrePrices g s).length : ℚ)⟩ : GenreAvg))
    rw [getAveragePriceByGenre]
    refine (hperm.pairwise_iff fun h => Ne.symm h).2 ?_
    exact List.pairwise_map.2 ((List.nodup_dedup _).imp fun h => h)

lemma decade_filter_eq_count (s : Store) (d : Int) :
    (s.books.filter fun b => decadeOf b.data.published_year == d).length
      = (s.books.map fun b => decadeOf b.data.published_year).count d := by
  rw [← List.countP_eq_length_filter]
  show _ = (s.books.map fun b => decadeOf b.data.published_year).countP (· == d)
  rw [List.countP_map]
  rfl

/-- C7: CountByDecade groups the records by decade (published_year minus its
remainder mod 10), one group per occurring decade with the exact member count,
the groups are sorted ascending by decade, and the counts sum to the total
number of records in the store. -/
theorem getBooksByDecade_spec (s : Store) :
    (∀ e ∈ getBooksByDecade s,
        e.count = (s.books.filter fun b => decadeOf b.data.published_year == e._id).length)
      ∧ (∀ b ∈ s.books, ∃ e ∈ getBooksByDecade s, e._id = decadeOf b.data.published_year)
      ∧ (getBooksByDecade s).Sorted byDecade
      ∧ (getBooksByDecade s).Pairwise (fun x y => x._id ≠ y._id)
      ∧ ((getBooksByDecade s).map DecadeCount.count).sum = s.books.length := by
  refine ⟨?_, ?_, List.sorted_insertionSort _ _, ?_, ?_⟩
  · intro e he
    rw [getBooksByDecade, List.mem_insertionSort, List.mem_map] at he
    obtain ⟨d, _, rfl⟩ := he
    rfl
  · intro b hb
    refine ⟨⟨decadeOf b.data.published_year,
      (s.books.filter fun x =>
        decadeOf x.data.published_year == decadeOf b.data.published_year).length⟩, ?_, rfl⟩
    rw [getBooksByDecade, List.mem_insertionSort]
    exact List.mem_map_of_mem _ (List.mem_dedup.2 (List.mem_map_of_mem _ hb))
  · have hperm := List.perm_insertionSort byDecade
      (((s.books.map fun b => decadeOf b.data.published_year).dedup).map fun d =>
        (⟨d, (s.books.filter fun b => decadeOf b.data.published_year == d).length⟩ :
          DecadeCount))
    rw [getBooksByDecade]
    refine (hperm.pairwise_iff fun h => Ne.symm h).2 ?_
    exact List.pairwise_map.2 ((List.nodup_dedup _).imp fun h => h)
  · have hperm := List.perm_insertionSort byDecade
      (((s.books.map fun b => decadeOf b.data.published_year).dedup).map fun d =>
        (⟨d, (s.books.filter fun b => decadeOf b.data.published_year == d).length⟩ :
          DecadeCount))
    rw [getBooksByDecade, (hperm.map DecadeCount.count).sum_eq, List.map_map]
    have hcongr :
        ((s.books.map fun b => decadeOf b.data.published_year).dedup).map
            (DecadeCount.count ∘ fun d =>
              (⟨d, (s.books.filter fun b => decadeOf b.data.published_year == d).length⟩ :
                DecadeCount))
          = ((s.books.map fun b => decadeOf b.data.published_year).dedup).map
              (fun d => (s.books.map fun b => decadeOf b.data.published_year).count d) :=
      List.map_congr_left fun d _ => decade_filter_eq_count s d
    rw [hcongr, List.sum_map_count_dedup_eq_length, List.length_map]

lemma find?_genre_max {g : String} :
    ∀ {l : List StoredBook}, l.Pairwise byGenrePriceDesc →
      ∀ {b}, (l.find? fun x => x.data.genre == g) = some b →
        ∀ x ∈ l, x.data.genre = g → x.data.price ≤ b.data.price := by
  intro l
  induction l with
  | nil => intro _ b hb; cases hb
  | cons a t ih =>
    intro hp b hb x hx hxg
    rcases List.pairwise_cons.1 hp with ⟨ha, ht⟩
    by_cases hag : (a.data.genre == g) = true
    · rw [List.find?_cons_of_pos (p := fun x : StoredBook => x.data.genre == g) _ hag] at hb
      have hba : a = b := Option.some.inj hb
      rcases List.mem_cons.1 hx with rfl | hx
      · rw [← hba]
      · rcases ha x hx with hlt | ⟨-, hle⟩
        · have hgg : a.data.genre = g := by simpa using hag
          rw [hgg, hxg] at hlt
          exact absurd hlt (lt_irrefl _)
        · rw [← hba]
          exact hle
    · rw [List.find?_cons_of_neg (p := fun x : StoredBook => x.data.genre == g) _ hag] at hb
      rcases List.mem_cons.1 hx with rfl | hx
      · exact absurd (by simpa using hxg) hag
      · exact ih ht hb x hx hxg

lemma topOfGenre_id (s : Store) (g : String) : (topOfGenre s g)._id = g := by
  unfold topOfGenre
  split <;> rfl

/-- C8: MostExpensiveByGenre returns exactly one entry per genre present in the
store; each entry's title, author and price come from a stored record of that
genre, and its price is the maximum price among the records of that genre. -/
theorem getMostExpensiveByGenre_spec (s : Store) :
    (∀ e ∈ getMostExpensiveByGenre s,
        (∃ b ∈ s.books, b.data.genre = e._id ∧ b.data.title = e.title
          ∧ b.data.author = e.author ∧ b.data.price = e.price)
        ∧ ∀ b ∈ s.books, b.data.genre = e._id → b.data.price ≤ e.price)
      ∧ (∀ b ∈ s.books, ∃ e ∈ getMostExpensiveByGenre s, e._id = b.data.genre)
      ∧ (getMostExpensiveByGenre s).Pairwise (fun x y => x._id ≠ y._id) := by
  refine ⟨?_, ?_, ?_⟩
  · intro e he
    rw [getMostExpensiveByGenre, List.mem_map] at he
    obtain ⟨g, hg, rfl⟩ := he
    rw [List.mem_dedup, List.mem_map] at hg
    obtain ⟨b₀, hb₀, rfl⟩ := hg
    obtain ⟨b, hb⟩ : ∃ b, (List.insertionSort byGenrePriceDesc s.books).find?
        (fun x => x.data.genre == b₀.data.genre) = some b := by
      cases hf : (List.insertionSort byGenrePriceDesc s.books).find?
          (fun x => x.data.genre == b₀.data.genre) with
      | some c => exact ⟨c, rfl⟩
      | none =>
        rw [List.find?_eq_none] at hf
        exact absurd (by simp) (hf b₀ hb₀)
    have htop : topOfGenre s b₀.data.genre
        = ⟨b₀.data.genre, b.data.title, b.data.author, b.data.price⟩ := by
      unfold topOfGenre
      rw [hb]
    rw [htop]
    have hbg : b.data.genre = b₀.data.genre := by
      simpa using List.find?_some hb
    constructor
    · exact ⟨b, (List.mem_insertionSort _).1 (List.mem_of_find?_eq_some hb),
        hbg, rfl, rfl, rfl⟩
    · intro x hx hxg
      exact find?_genre_max (List.sorted_insertionSort _ _) hb x
        ((List.mem_insertionSort _).2 hx) hxg
  · intro b hb
    rw [getMostExpensiveByGenre]
    refine ⟨_, List.mem_map_of_mem _ (List.mem_dedup.2 (List.mem_map_of_mem _
      ((List.mem_insertionSort byGenrePriceDesc).2 hb))), ?_⟩
    exact topOfGenre_id s b.data.genre
  · rw [getMostExpensiveByGenre]
    refine List.pairwise_map.2 (((List.nodup_dedup _)).imp fun h => ?_)
    rw [topOfGenre_id s _, topOfGenre_id s _]
    exact h
